import Mathlib

/-!
Verification development for the routing and dispatch core of the xweb
framework (file `route.go`).

The Go code is shallowly embedded:

* Go strings are Lean `String`; Go `len` on a string counts UTF-8 bytes, so
  it is modelled by `byteLen` below (length of the UTF-8 encoding).
* a compiled `*regexp.Regexp` is modelled by the abstract structure `Regexp`:
  a deterministic function `findStringSubmatch` (Go `FindStringSubmatch`,
  returning the whole match at index 0 followed by the capture groups)
  together with the well-formedness fact that any reported whole match is a
  contiguous substring of the input.  `MatchString` is the success test of
  the same matcher.
* `Routes.mapRoutes` (a Go map) is an association list with most-recent-first
  lookup, which realises the overwrite-on-insert map semantics.
* `Routes.handle` is turned into a pure selection function returning a
  `Dispatch` value that records which branch fired and with which handler;
  the header side effects (Server / Date) do not influence selection.
* `path.Join` from the Go standard library is an external collaborator and
  is passed to `Routes.handle` as an abstract `join` parameter.
-/

/-- UTF-8 encoding of one character, as in the Go conversion `[]byte(s)`. -/
def charBytes (c : Char) : List UInt8 :=
  let v := c.toNat
  if v < 0x80 then
    [UInt8.ofNat v]
  else if v < 0x800 then
    [UInt8.ofNat (0xC0 ||| (v >>> 6)), UInt8.ofNat (0x80 ||| (v &&& 0x3F))]
  else if v < 0x10000 then
    [UInt8.ofNat (0xE0 ||| (v >>> 12)), UInt8.ofNat (0x80 ||| ((v >>> 6) &&& 0x3F)),
     UInt8.ofNat (0x80 ||| (v &&& 0x3F))]
  else
    [UInt8.ofNat (0xF0 ||| (v >>> 18)), UInt8.ofNat (0x80 ||| ((v >>> 12) &&& 0x3F)),
     UInt8.ofNat (0x80 ||| ((v >>> 6) &&& 0x3F)), UInt8.ofNat (0x80 ||| (v &&& 0x3F))]

/-- UTF-8 encoding of a character list. -/
def utf8Encode : List Char → List UInt8
  | [] => []
  | c :: cs => charBytes c ++ utf8Encode cs

/-- Bytes of a Go string, i.e. the conversion `[]byte(s)`. -/
def strBytes (s : String) : List UInt8 :=
  utf8Encode s.data

/-- Go `len(s)` on a string: the number of UTF-8 bytes. -/
def byteLen (s : String) : Nat :=
  (strBytes s).length

/-- Abstract model of a compiled Go regular expression (`*regexp.Regexp`).
`findStringSubmatch` is `FindStringSubmatch`: `none` when there is no match
anywhere in the input, otherwise the leftmost match, whole match first and
then the capture groups.  `wf` records the library guarantee that a reported
whole match is a contiguous substring of the input. -/
structure Regexp where
  findStringSubmatch : String → Option (List String)
  wf : ∀ s m, findStringSubmatch s = some m →
      ∃ m0 rest pre post, m = m0 :: rest ∧ pre ++ m0.data ++ post = s.data

/-- Go `MatchString`: the same matcher succeeds somewhere in the input. -/
def Regexp.matchString (cr : Regexp) (s : String) : Bool :=
  (cr.findStringSubmatch s).isSome

/-- The `actionHandler` struct of route.go (the `app` back-pointer is
dropped; `cr` is `none` exactly when the Go field is nil, i.e. for exact
routes). -/
structure actionHandler where
  methods : List (String × Bool)
  cr : Option Regexp
  ctype : String
  handler : String

/-- A value of the Go `handler` interface as stored in `mapRoutes`: either a
static-file handler (identified by a label) or an action handler. -/
inductive Handler where
  | static : Nat → Handler
  | action : actionHandler → Handler

/-- The `Routes` struct of route.go (the `app` back-pointer is dropped). -/
structure Routes where
  mapRoutes : List (String × Handler)
  rgRoutes : List actionHandler
  defaultIndex : List String

/-- NewRoutes of route.go. -/
def NewRoutes (defaultHome : List String) : Routes :=
  ⟨[], [], defaultHome⟩

/-- Lookup in the `mapRoutes` map: most recent insertion first, matching the
overwrite semantics of a Go map under the cons-on-insert representation. -/
def mapLookup : List (String × Handler) → String → Option Handler
  | [], _ => none
  | (k, v) :: rest, s => if k = s then some v else mapLookup rest s

/-- addStatic of route.go: `r.mapRoutes[s] = handler` (always returns nil). -/
def Routes.addStatic (r : Routes) (s : String) (h : Handler) : Routes :=
  ⟨(s, h) :: r.mapRoutes, r.rgRoutes, r.defaultIndex⟩

/-- Go `strings.ContainsAny(s, "*?")`: some character of `s` is `*` or `?`. -/
def containsStarQ (s : String) : Bool :=
  s.data.any (fun c => c == '*' || c == '?')

/-- addAction of route.go.  `compile` stands for `regexp.Compile`; the
returned `Option String` is the Go error (`none` = nil).  A source without
`*` or `?` is stored in the exact map without touching `compile`; otherwise
the source is compiled and, on success, appended to `rgRoutes`. -/
def Routes.addAction (compile : String → Except String Regexp) (r : Routes)
    (s : String) (methods : List (String × Bool)) (ctype actionName : String) :
    Routes × Option String :=
  if !containsStarQ s then
    (⟨(s, Handler.action ⟨methods, none, ctype, actionName⟩) :: r.mapRoutes,
      r.rgRoutes, r.defaultIndex⟩, none)
  else
    match compile s with
    | Except.error e => (r, some e)
    | Except.ok cr =>
        (⟨r.mapRoutes, r.rgRoutes ++ [⟨methods, some cr, ctype, actionName⟩],
          r.defaultIndex⟩, none)

/-- Body of the pattern loop of `Routes.handle` for one entry: the Go code
first tests `handler.cr.MatchString(requestPath)`, then recomputes the match
with `FindStringSubmatch` (the matcher is deterministic, so both calls are
the one function here), and accepts only when `len(match[0]) ==
len(requestPath)`; the captures passed on are `match[1:]`.  Entries of
`rgRoutes` always carry a compiled pattern (`addAction` is the only writer);
a nil `cr` would make the Go code panic, modelled as a skip. -/
def handlerAccepts (h : actionHandler) (path : String) : Option (List String) :=
  match h.cr with
  | none => none
  | some cr =>
    match cr.findStringSubmatch path with
    | none => none
    | some m =>
      if byteLen (m.headD "") = byteLen path then some m.tail else none

/-- The `for _, handler := range r.rgRoutes` loop of `Routes.handle`: first
accepting entry wins. -/
def firstPatternMatch : List actionHandler → String → Option (actionHandler × List String)
  | [], _ => none
  | h :: rest, path =>
    match handlerAccepts h path with
    | some caps => some (h, caps)
    | none => firstPatternMatch rest path

/-- The `for _, page := range r.defaultIndex` loop of `Routes.handle`:
for each candidate page the Go code computes `path.Join(requestPath, page)`
and retries the exact map; first hit wins. -/
def firstDefaultIndex (join : String → String → String) :
    List String → List (String × Handler) → String → Option (Handler × String)
  | [], _, _ => none
  | page :: rest, m, path =>
    match mapLookup m (join path page) with
    | some h => some (h, join path page)
    | none => firstDefaultIndex join rest m path

/-- The routing decision of `Routes.handle`: which branch fired, with which
handler (and captures / joined index path). -/
inductive Dispatch where
  | doExact : Handler → Dispatch
  | doPattern : actionHandler → List String → Dispatch
  | doDefault : Handler → String → Dispatch
  | notFound : Dispatch

/-- handle of route.go as a pure selection function.  `join` is
`path.Join` of the Go standard library (an external collaborator).  The
normalized `method` variable is computed exactly as in the source and, as in
the source, never consulted during matching.  The Server / Date header side
effects do not influence the selection and are not part of the decision. -/
def Routes.handle (join : String → String → String) (r : Routes)
    (reqMethod requestPath : String) : Dispatch :=
  let method := if reqMethod == "HEAD" then "GET" else reqMethod
  match mapLookup r.mapRoutes requestPath with
  | some h => Dispatch.doExact h
  | none =>
    match firstPatternMatch r.rgRoutes requestPath with
    | some (h, caps) => Dispatch.doPattern h caps
    | none =>
      match firstDefaultIndex join r.defaultIndex r.mapRoutes requestPath with
      | some (h, idxPath) => Dispatch.doDefault h idxPath
      | none =>
        let _ := method
        Dispatch.notFound

/-! ## The dispatcher lifecycle (`actionHandler.DoCr`)

The reflective pieces of `DoCr` are abstracted into explicit parameters:

* which optional hook methods the instance type exposes (`InstanceHooks`,
  standing for the `MethodByName` probes on `h.ctype`);
* the outcome of the guarded invocation `a.safelyCall(vc, h.handler, args)`
  (`CallResult`), which is code of this repository outside route.go.

The response writer is an explicit `Response` state; the observable stage
sequence is recorded as a list of `Event`s. -/

/-- Modelled from the spec: the CSRF contract says the cookie name and the
form field name share one configured tag (`XSRF_TAG` lives outside
route.go); its literal value is immaterial to every claim. -/
def XSRF_TAG : String := "_xsrf"

/-- The slice of `AppConfig` that `DoCr` consults for the claims at hand. -/
structure AppConfig where
  CheckXrsf : Bool

/-- The inbound request, after form parsing (route.go ignores the errors of
`ParseForm` / `ParseMultipartForm`, so the parsed form is simply part of the
request state here). -/
structure Request where
  Method : String
  cookies : List (String × String)
  form : List (String × List String)

/-- First value associated to a key in an association list (cookie jar and
form semantics both return the first binding). -/
def assocFind {α : Type} : List (String × α) → String → Option α
  | [], _ => none
  | (k, v) :: rest, name => if k = name then some v else assocFind rest name

/-- Go `req.Cookie(name)`: the first cookie with that name, `none` exactly
when the Go call returns a non-nil error. -/
def Request.cookie (req : Request) (name : String) : Option String :=
  assocFind req.cookies name

/-- Go `req.Form[name]`: the list of form values for the field (empty when
absent). -/
def Request.formValues (req : Request) (name : String) : List String :=
  (assocFind req.form name).getD []

/-- The response writer state: status (as committed by `WriteHeader`, or by
the first `Write` which commits 200), the header map, and the written body
bytes. -/
structure Response where
  status : Option Nat
  headers : List (String × String)
  body : List UInt8

/-- Go `Header().Set(k, v)`: replace any previous value of the key. -/
def Response.setHeader (w : Response) (k v : String) : Response :=
  ⟨w.status, (k, v) :: w.headers.filter (fun p => !(p.1 == k)), w.body⟩

/-- Go `WriteHeader(code)`: commits the status; a second call is ignored. -/
def Response.writeHeader (w : Response) (code : Nat) : Response :=
  match w.status with
  | some _ => w
  | none => ⟨some code, w.headers, w.body⟩

/-- Go `Write(bs)`: commits status 200 when none is set yet, then appends
the bytes to the body. -/
def Response.write (w : Response) (bs : List UInt8) : Response :=
  ⟨some (w.status.getD 200), w.headers, w.body ++ bs⟩

/-- Header lookup on the response (most recent `Set` wins). -/
def getHeader : List (String × String) → String → Option String
  | [], _ => none
  | (k, v) :: rest, name => if k = name then some v else getHeader rest name

/-- Which optional hook methods `MethodByName` finds on the instance. -/
structure InstanceHooks where
  hasInit : Bool
  hasBefore : Bool
  hasAfter : Bool

/-- One return value of the invoked action method, by reflected kind:
a string, a byte slice, a value of the `error` interface (`none` = nil
error), or anything else. -/
inductive RetVal where
  | str : String → RetVal
  | bytes : List UInt8 → RetVal
  | err : Option String → RetVal
  | other : RetVal

/-- Outcome of `a.safelyCall(vc, h.handler, args)`: a caught fault (non-nil
error, e.g. from a panic in the business logic) or the return values. -/
inductive CallResult where
  | fault : String → CallResult
  | ok : List RetVal → CallResult

/-- Observable lifecycle events of one `DoCr` run, in order. -/
inductive Event where
  | constructInstance : Event
  | initHook : Event
  | beforeHook : Event
  | invoke : Event
  | afterHook : Event
  | logError : String → Event
deriving DecidableEq

/-- Test for a logged error event. -/
def Event.isLogError : Event → Bool
  | Event.logError _ => true
  | _ => false

/-- Modelled from the spec: `Action.Abort(status, body)` lives outside
route.go; the spec says it aborts the request with the given HTTP status and
the fixed plain-text body. -/
def abortWith (w : Response) (status : Nat) (body : String) : Response :=
  (w.writeHeader status).write (strBytes body)

/-- The CSRF failure test of route.go, verbatim: `err != nil || res.Value ==
"" || res.Value != formVal`, where `formVal` is the first value of the
same-named form field (empty when the field is absent). -/
def xrsfFailCond (req : Request) : Bool :=
  let cookieVal := req.cookie XSRF_TAG
  let formVal := (req.formValues XSRF_TAG).headD ""
  cookieVal.isNone || cookieVal.getD "" == "" || !(cookieVal.getD "" == formVal)

/-- The lifecycle of `DoCr` after the CSRF gate: construct the instance
(field injection and `StructMap` binding are silent), run the optional Init
and Before hooks, perform the guarded invocation, on success run the
optional After hook and render the result, setting `Content-Length` to the
byte length of the rendered content (`strconv.Itoa(len(content))`). -/
def doCrRest (hooks : InstanceHooks) (callRes : CallResult) (w : Response) :
    Response × List Event :=
  let evs := [Event.constructInstance]
    ++ (if hooks.hasInit then [Event.initHook] else [])
    ++ (if hooks.hasBefore then [Event.beforeHook] else [])
  match callRes with
  | CallResult.fault msg =>
    (abortWith w 500 "Server Error", evs ++ [Event.invoke, Event.logError msg])
  | CallResult.ok ret =>
    let evs := evs ++ [Event.invoke]
      ++ (if hooks.hasAfter then [Event.afterHook] else [])
    match ret with
    | [] => (w, evs)
    | sval :: _ =>
      match sval with
      | RetVal.str s =>
        let content := strBytes s
        ((w.setHeader "Content-Length" (toString content.length)).write content, evs)
      | RetVal.bytes bs =>
        ((w.setHeader "Content-Length" (toString bs.length)).write bs, evs)
      | RetVal.err (some e) =>
        (abortWith w 500 "Server Error", evs ++ [Event.logError e])
      | RetVal.err none =>
        ((w.setHeader "Content-Length" (toString (List.length ([] : List UInt8)))).write [], evs)
      | RetVal.other =>
        ((w.setHeader "Content-Length" (toString (List.length ([] : List UInt8)))).write [], evs)

/-- DoCr of route.go (form parsing already reflected in `req.form`): set the
default Content-Type header, run the CSRF gate for an enabled configuration
on a POST, then the rest of the lifecycle.  The `matchArgs` captures feed
only the guarded invocation, whose outcome is the `callRes` parameter. -/
def DoCr (cfg : AppConfig) (hooks : InstanceHooks) (callRes : CallResult)
    (req : Request) (matchArgs : List String) : Response × List Event :=
  let w := Response.setHeader ⟨none, [], []⟩ "Content-Type" "text/html; charset=utf-8"
  let _ := matchArgs
  if cfg.CheckXrsf && req.Method == "POST" then
    if xrsfFailCond req then
      ((w.writeHeader 500).write (strBytes "xrsf error."), [])
    else
      doCrRest hooks callRes w
  else
    doCrRest hooks callRes w

/-! ## Auxiliary definitions: methods erasure, demo matchers and tables

These support the hyperproperty that dispatch never consults the allowed
methods, and provide concrete instances for the evaluation theorems. -/

/-- Replace the allowed-methods set of an action handler. -/
def actionHandler.setMethods (h : actionHandler) (ms : List (String × Bool)) : actionHandler :=
  ⟨ms, h.cr, h.ctype, h.handler⟩

/-- Replace the allowed-methods set inside a stored handler. -/
def Handler.setMethods : Handler → List (String × Bool) → Handler
  | Handler.static n, _ => Handler.static n
  | Handler.action a, ms => Handler.action (a.setMethods ms)

/-- Replace the allowed-methods set of every registered handler. -/
def Routes.setMethods (r : Routes) (ms : List (String × Bool)) : Routes :=
  ⟨r.mapRoutes.map (fun p => (p.1, p.2.setMethods ms)),
   r.rgRoutes.map (fun a => a.setMethods ms), r.defaultIndex⟩

/-- Replace the allowed-methods set inside a routing decision. -/
def Dispatch.setMethods : Dispatch → List (String × Bool) → Dispatch
  | Dispatch.doExact h, ms => Dispatch.doExact (h.setMethods ms)
  | Dispatch.doPattern h caps, ms => Dispatch.doPattern (h.setMethods ms) caps
  | Dispatch.doDefault h p, ms => Dispatch.doDefault (h.setMethods ms) p
  | Dispatch.notFound, _ => Dispatch.notFound

/-- Concrete stand-in for `path.Join` in the evaluation theorems. -/
def demoJoin (a b : String) : String := a ++ "/" ++ b

/-- Demo matcher: matches the whole input with no capture group. -/
def rxAll : Regexp where
  findStringSubmatch s := some [s]
  wf := by
    intro s m hm
    injection hm with hm
    exact ⟨s, [], [], [], hm.symm, by simp⟩

/-- Matching function of the demo matcher `rxUser`. -/
def rxUserFind (s : String) : Option (List String) :=
  if s = "/user/123" then some ["/user/123", "123"]
  else if s = "/user/123/extra" then some ["/user/123", "123"]
  else none

/-- Demo matcher: the leftmost-match behaviour of the Go pattern
`/user/(\d+)` on the inputs exercised by the evaluation theorems; note that
on `/user/123/extra` the unanchored Go matcher reports the proper prefix
`/user/123`. -/
def rxUser : Regexp where
  findStringSubmatch := rxUserFind
  wf := by
    intro s m hm
    unfold rxUserFind at hm
    by_cases h1 : s = "/user/123"
    · rw [if_pos h1] at hm
      injection hm with hm
      exact ⟨"/user/123", ["123"], [], [], hm.symm, by rw [h1]; simp⟩
    · rw [if_neg h1] at hm
      by_cases h2 : s = "/user/123/extra"
      · rw [if_pos h2] at hm
        injection hm with hm
        refine ⟨"/user/123", ["123"], [], "/extra".data, hm.symm, ?_⟩
        rw [h2]
        decide
      · rw [if_neg h2] at hm
        exact absurd hm (by simp)

/-- Demo pattern route built on `rxUser`. -/
def userHandler : actionHandler := ⟨[("GET", true)], some rxUser, "*UserAction", "Execute"⟩

/-- Demo pattern route built on `rxAll`. -/
def catchAllHandler : actionHandler := ⟨[], some rxAll, "*CatchAllAction", "Execute"⟩

/-- Demo table with a single pattern route. -/
def demoPatternRoutes : Routes := ⟨[], [userHandler], []⟩

/-- Demo table with an exact entry and an overlapping pattern route. -/
def demoExactRoutes : Routes := ⟨[("/home", Handler.static 0)], [catchAllHandler], []⟩

/-- Demo table with two overlapping pattern routes, the less specific one
registered first. -/
def demoOverlapRoutes : Routes := ⟨[], [catchAllHandler, userHandler], []⟩

/-- Demo table with a default-index entry only. -/
def demoIndexRoutes : Routes := ⟨[("/dir/index.html", Handler.static 1)], [], ["index.html"]⟩

/-- Demo POST request with no cookie and no form data. -/
def demoPostReq : Request := ⟨"POST", [], []⟩

/-- Demo POST request whose CSRF cookie equals the same-named form field. -/
def demoPostOkReq : Request := ⟨"POST", [(XSRF_TAG, "tok")], [(XSRF_TAG, ["tok"])]⟩

/-- Demo GET request. -/
def demoGetReq : Request := ⟨"GET", [], []⟩

/-- Demo compiler that always fails, as `regexp.Compile` does on a
syntactically invalid pattern source. -/
def compileFail : String → Except String Regexp :=
  fun _ => Except.error "error parsing regexp: missing argument to repetition operator"

/-- Demo compiler that always succeeds with `rxAll`. -/
def compileAll : String → Except String Regexp :=
  fun _ => Except.ok rxAll

/-! ## Helper lemmas -/

theorem charBytes_ne_nil (c : Char) : charBytes c ≠ [] := by
  by_cases h1 : c.toNat < 0x80 <;> by_cases h2 : c.toNat < 0x800 <;>
    by_cases h3 : c.toNat < 0x10000 <;> simp [charBytes, h1, h2, h3]

theorem utf8Encode_append (a b : List Char) :
    utf8Encode (a ++ b) = utf8Encode a ++ utf8Encode b := by
  induction a with
  | nil => rfl
  | cons c cs ih => simp [utf8Encode, ih]

theorem utf8Encode_eq_nil {l : List Char} (h : utf8Encode l = []) : l = [] := by
  cases l with
  | nil => rfl
  | cons c cs =>
    rw [utf8Encode, List.append_eq_nil] at h
    exact absurd h.1 (charBytes_ne_nil c)

theorem str_data_inj {s t : String} (h : s.data = t.data) : s = t := by
  cases s with
  | mk d1 =>
    cases t with
    | mk d2 =>
      have h2 : d1 = d2 := h
      rw [h2]

/-- A contiguous substring whose byte length equals the byte length of the
whole string is the whole string. -/
theorem substring_full_length {m0 s : String} {pre post : List Char}
    (hdec : pre ++ m0.data ++ post = s.data) (hlen : byteLen m0 = byteLen s) :
    m0 = s := by
  have hb : byteLen s =
      (utf8Encode pre).length + byteLen m0 + (utf8Encode post).length := by
    unfold byteLen strBytes
    rw [← hdec, utf8Encode_append, utf8Encode_append]
    simp [List.length_append]
    omega
  have hpre : pre = [] := by
    apply utf8Encode_eq_nil
    apply List.length_eq_zero.mp
    omega
  have hpost : post = [] := by
    apply utf8Encode_eq_nil
    apply List.length_eq_zero.mp
    omega
  subst hpre
  subst hpost
  apply str_data_inj
  simpa using hdec

/-- Inversion of the per-entry acceptance test: an accepted entry carries a
compiled pattern whose reported whole match has exactly the byte length of
the request path, and the captures are the tail of the reported match. -/
theorem handlerAccepts_inv {h : actionHandler} {path : String} {caps : List String}
    (hacc : handlerAccepts h path = some caps) :
    ∃ cr m, h.cr = some cr ∧ cr.findStringSubmatch path = some m ∧
      byteLen (m.headD "") = byteLen path ∧ caps = m.tail := by
  unfold handlerAccepts at hacc
  split at hacc
  · exact absurd hacc (by simp)
  · rename_i cr hcr
    split at hacc
    · exact absurd hacc (by simp)
    · rename_i m hfind
      split at hacc
      · rename_i hbl
        exact ⟨cr, m, hcr, hfind, hbl, by injection hacc with h2; exact h2.symm⟩
      · exact absurd hacc (by simp)

/-- The pattern loop returns an entry only if that entry accepts the path. -/
theorem firstPatternMatch_accepts {l : List actionHandler} {path : String}
    {h : actionHandler} {caps : List String}
    (hf : firstPatternMatch l path = some (h, caps)) :
    handlerAccepts h path = some caps := by
  induction l with
  | nil => exact absurd hf (by simp [firstPatternMatch])
  | cons a rest ih =>
    unfold firstPatternMatch at hf
    split at hf
    · rename_i c hacc
      injection hf with hf
      injection hf with e1 e2
      subst e1
      subst e2
      exact hacc
    · exact ih hf

/-- The pattern loop returns the first accepting entry. -/
theorem firstPatternMatch_first {path : String} {h : actionHandler}
    {caps : List String} (l1 l2 : List actionHandler)
    (hacc : handlerAccepts h path = some caps)
    (hprev : ∀ h2 ∈ l1, handlerAccepts h2 path = none) :
    firstPatternMatch (l1 ++ h :: l2) path = some (h, caps) := by
  induction l1 with
  | nil => simp [firstPatternMatch, hacc]
  | cons a rest ih =>
    have ha : handlerAccepts a path = none := hprev a (List.mem_cons_self a rest)
    rw [List.cons_append]
    unfold firstPatternMatch
    rw [ha]
    exact ih (fun h2 hm => hprev h2 (List.mem_cons_of_mem a hm))

/-- The default-index loop returns the first candidate whose joined path has
an exact entry. -/
theorem firstDefaultIndex_first (join : String → String → String)
    {path page : String} {h : Handler} {m : List (String × Handler)}
    (l1 l2 : List String)
    (hhit : mapLookup m (join path page) = some h)
    (hprev : ∀ p ∈ l1, mapLookup m (join path p) = none) :
    firstDefaultIndex join (l1 ++ page :: l2) m path = some (h, join path page) := by
  induction l1 with
  | nil => simp [firstDefaultIndex, hhit]
  | cons a rest ih =>
    have ha : mapLookup m (join path a) = none := hprev a (List.mem_cons_self a rest)
    rw [List.cons_append]
    unfold firstDefaultIndex
    rw [ha]
    exact ih (fun p hm => hprev p (List.mem_cons_of_mem a hm))

theorem handle_eq_exact {join : String → String → String} {r : Routes}
    {reqMethod path : String} {h : Handler}
    (hm : mapLookup r.mapRoutes path = some h) :
    Routes.handle join r reqMethod path = Dispatch.doExact h := by
  simp [Routes.handle, hm]

theorem handle_eq_pattern {join : String → String → String} {r : Routes}
    {reqMethod path : String} {h : actionHandler} {caps : List String}
    (hm : mapLookup r.mapRoutes path = none)
    (hp : firstPatternMatch r.rgRoutes path = some (h, caps)) :
    Routes.handle join r reqMethod path = Dispatch.doPattern h caps := by
  simp [Routes.handle, hm, hp]

theorem handle_eq_default {join : String → String → String} {r : Routes}
    {reqMethod path : String} {h : Handler} {idxPath : String}
    (hm : mapLookup r.mapRoutes path = none)
    (hp : firstPatternMatch r.rgRoutes path = none)
    (hd : firstDefaultIndex join r.defaultIndex r.mapRoutes path = some (h, idxPath)) :
    Routes.handle join r reqMethod path = Dispatch.doDefault h idxPath := by
  simp [Routes.handle, hm, hp, hd]

theorem handle_eq_notFound {join : String → String → String} {r : Routes}
    {reqMethod path : String}
    (hm : mapLookup r.mapRoutes path = none)
    (hp : firstPatternMatch r.rgRoutes path = none)
    (hd : firstDefaultIndex join r.defaultIndex r.mapRoutes path = none) :
    Routes.handle join r reqMethod path = Dispatch.notFound := by
  simp [Routes.handle, hm, hp, hd]

/-- Inversion: a pattern dispatch can only come from the pattern loop. -/
theorem handle_pattern_inv {join : String → String → String} {r : Routes}
    {reqMethod path : String} {h : actionHandler} {caps : List String}
    (hd : Routes.handle join r reqMethod path = Dispatch.doPattern h caps) :
    firstPatternMatch r.rgRoutes path = some (h, caps) := by
  cases hm : mapLookup r.mapRoutes path with
  | some h0 =>
    rw [handle_eq_exact hm] at hd
    exact absurd hd (by simp)
  | none =>
    cases hp : firstPatternMatch r.rgRoutes path with
    | some pr =>
      obtain ⟨h0, caps0⟩ := pr
      rw [handle_eq_pattern hm hp] at hd
      injection hd with e1 e2
      subst e1
      subst e2
      rfl
    | none =>
      cases hdf : firstDefaultIndex join r.defaultIndex r.mapRoutes path with
      | some pr =>
        obtain ⟨h0, idx⟩ := pr
        rw [handle_eq_default hm hp hdf] at hd
        exact absurd hd (by simp)
      | none =>
        rw [handle_eq_notFound hm hp hdf] at hd
        exact absurd hd (by simp)

theorem mapLookup_setMethods (m : List (String × Handler)) (s : String)
    (ms : List (String × Bool)) :
    mapLookup (m.map (fun p => (p.1, p.2.setMethods ms))) s =
      (mapLookup m s).map (fun h => h.setMethods ms) := by
  induction m with
  | nil => rfl
  | cons p rest ih =>
    obtain ⟨k, v⟩ := p
    by_cases hk : k = s <;> simp [mapLookup, hk, ih]

theorem handlerAccepts_setMethods (a : actionHandler) (ms : List (String × Bool))
    (path : String) :
    handlerAccepts (a.setMethods ms) path = handlerAccepts a path := rfl

theorem firstPatternMatch_setMethods (l : List actionHandler) (path : String)
    (ms : List (String × Bool)) :
    firstPatternMatch (l.map (fun a => a.setMethods ms)) path =
      (firstPatternMatch l path).map (fun pc => (pc.1.setMethods ms, pc.2)) := by
  induction l with
  | nil => rfl
  | cons a rest ih =>
    simp only [List.map_cons, firstPatternMatch, handlerAccepts_setMethods]
    cases handlerAccepts a path <;> simp [ih]

theorem firstDefaultIndex_setMethods (join : String → String → String)
    (idx : List String) (m : List (String × Handler)) (path : String)
    (ms : List (String × Bool)) :
    firstDefaultIndex join idx (m.map (fun p => (p.1, p.2.setMethods ms))) path =
      (firstDefaultIndex join idx m path).map (fun pc => (pc.1.setMethods ms, pc.2)) := by
  induction idx with
  | nil => rfl
  | cons page rest ih =>
    simp only [firstDefaultIndex, mapLookup_setMethods]
    cases mapLookup m (join path page) <;> simp [ih]

/-! ## Claim theorems: routing -/

/-- C1: the router selects a pattern route only if the compiled pattern
reports a match spanning the entire request path.  Whenever `Routes.handle`
dispatches to a pattern route, that route carries a compiled pattern whose
reported whole match (index 0 of `FindStringSubmatch`) equals the full
request path, and the captures are the remaining groups; since a reported
match is a contiguous substring, a pattern matching only a proper prefix or
any proper substring of the path fails the byte-length test of route.go and
is never selected. -/
theorem handle_pattern_match_spans_path (join : String → String → String)
    (r : Routes) (reqMethod path : String) (h : actionHandler) (caps : List String)
    (hd : Routes.handle join r reqMethod path = Dispatch.doPattern h caps) :
    ∃ cr rest, h.cr = some cr ∧
      cr.findStringSubmatch path = some (path :: rest) ∧ caps = rest := by
  have hfp := handle_pattern_inv hd
  have hacc := firstPatternMatch_accepts hfp
  obtain ⟨cr, m, hcr, hfind, hbl, hcaps⟩ := handlerAccepts_inv hacc
  obtain ⟨m0, rest, pre, post, hm, hdecomp⟩ := cr.wf path m hfind
  subst hm
  have hm0 : m0 = path := by
    apply substring_full_length hdecomp
    simpa using hbl
  subst hm0
  exact ⟨cr, rest, hcr, hfind, by simpa using hcaps⟩

/-- Witness for C1: the `rxUser` route is selected for `/user/123` with a
match spanning the whole path. -/
theorem handle_pattern_match_spans_path_witness :
    Routes.handle demoJoin demoPatternRoutes "GET" "/user/123" =
      Dispatch.doPattern userHandler ["123"] ∧
    ∃ cr rest, userHandler.cr = some cr ∧
      cr.findStringSubmatch "/user/123" = some ("/user/123" :: rest) ∧
      (["123"] : List String) = rest :=
  ⟨rfl, handle_pattern_match_spans_path demoJoin demoPatternRoutes "GET" "/user/123"
    userHandler ["123"] rfl⟩

/-- Evaluation of the example of the spec: on `/user/123/extra` the
unanchored matcher reports only the proper prefix `/user/123`, so the
pattern route is not selected for that path. -/
theorem pattern_prefix_only_not_selected :
    rxUser.findStringSubmatch "/user/123/extra" = some ["/user/123", "123"] ∧
    Routes.handle demoJoin demoPatternRoutes "GET" "/user/123/extra" =
      Dispatch.notFound :=
  ⟨rfl, rfl⟩

/-- C4: a path with an exact-map entry dispatches that entry, and the
decision is the same whatever pattern routes are registered (the pattern
list is never consulted for such a path). -/
theorem handle_exact_precedence (join : String → String → String) (r : Routes)
    (reqMethod path : String) (h : Handler)
    (hmap : mapLookup r.mapRoutes path = some h) :
    Routes.handle join r reqMethod path = Dispatch.doExact h ∧
    ∀ rg : List actionHandler,
      Routes.handle join ⟨r.mapRoutes, rg, r.defaultIndex⟩ reqMethod path =
        Dispatch.doExact h := by
  refine ⟨handle_eq_exact hmap, fun rg => handle_eq_exact ?_⟩
  exact hmap

/-- Witness for C4: `/home` has an exact entry and is dispatched to it even
though the overlapping catch-all pattern is registered. -/
theorem handle_exact_precedence_witness :
    mapLookup demoExactRoutes.mapRoutes "/home" = some (Handler.static 0) ∧
    handlerAccepts catchAllHandler "/home" = some [] ∧
    Routes.handle demoJoin demoExactRoutes "GET" "/home" =
      Dispatch.doExact (Handler.static 0) :=
  ⟨rfl, rfl, (handle_exact_precedence demoJoin demoExactRoutes "GET" "/home"
    (Handler.static 0) rfl).1⟩

/-- C5: among the registered pattern routes, the first one in registration
order that accepts the path (full-string match) is dispatched, regardless of
what follows it in the list (specificity plays no role). -/
theorem handle_first_registered_pattern_wins (join : String → String → String)
    (r : Routes) (reqMethod path : String) (l1 l2 : List actionHandler)
    (h : actionHandler) (caps : List String)
    (hmap : mapLookup r.mapRoutes path = none)
    (hsplit : r.rgRoutes = l1 ++ h :: l2)
    (hacc : handlerAccepts h path = some caps)
    (hprev : ∀ h2 ∈ l1, handlerAccepts h2 path = none) :
    Routes.handle join r reqMethod path = Dispatch.doPattern h caps := by
  apply handle_eq_pattern hmap
  rw [hsplit]
  exact firstPatternMatch_first l1 l2 hacc hprev

/-- Witness for C5: both the catch-all route and the more specific
`/user/(\d+)` route accept `/user/123`; the catch-all route was registered
first and wins. -/
theorem handle_first_registered_pattern_wins_witness :
    handlerAccepts catchAllHandler "/user/123" = some [] ∧
    handlerAccepts userHandler "/user/123" = some ["123"] ∧
    Routes.handle demoJoin demoOverlapRoutes "GET" "/user/123" =
      Dispatch.doPattern catchAllHandler [] :=
  ⟨rfl, rfl, handle_first_registered_pattern_wins demoJoin demoOverlapRoutes "GET"
    "/user/123" [] [userHandler] catchAllHandler [] rfl rfl rfl
    (fun h2 hm => absurd hm (List.not_mem_nil h2))⟩

/-- C9: with no exact entry and no accepting pattern, the default-index
candidates are tried in configured order against `join(path, candidate)`;
the first candidate whose joined path has an exact entry is dispatched and
the later candidates are not tried. -/
theorem handle_default_index_order (join : String → String → String)
    (r : Routes) (reqMethod path : String) (l1 l2 : List String) (page : String)
    (h : Handler)
    (hmap : mapLookup r.mapRoutes path = none)
    (hpat : firstPatternMatch r.rgRoutes path = none)
    (hsplit : r.defaultIndex = l1 ++ page :: l2)
    (hhit : mapLookup r.mapRoutes (join path page) = some h)
    (hprev : ∀ p ∈ l1, mapLookup r.mapRoutes (join path p) = none) :
    Routes.handle join r reqMethod path = Dispatch.doDefault h (join path page) := by
  apply handle_eq_default hmap hpat
  rw [hsplit]
  exact firstDefaultIndex_first join l1 l2 hhit hprev

/-- Witness for C9: `/dir` has no direct entry; the candidate `index.html`
joins to `/dir/index.html`, which has an exact entry. -/
theorem handle_default_index_order_witness :
    mapLookup demoIndexRoutes.mapRoutes "/dir" = none ∧
    Routes.handle demoJoin demoIndexRoutes "GET" "/dir" =
      Dispatch.doDefault (Handler.static 1) (demoJoin "/dir" "index.html") :=
  ⟨rfl, handle_default_index_order demoJoin demoIndexRoutes "GET" "/dir" [] []
    "index.html" (Handler.static 1) rfl rfl rfl rfl
    (fun p hm => absurd hm (List.not_mem_nil p))⟩

/-- C10: route selection depends only on the request path, never on the
HTTP method: any two methods produce the identical dispatch decision (the
normalized method variable is computed but never consulted), and replacing
every registered allowed-methods set changes nothing in the decision beyond
the methods stored inside the selected handler itself (the allowed-methods
set is never checked at dispatch time). -/
theorem handle_ignores_method_and_methods (join : String → String → String)
    (r : Routes) (path : String) :
    (∀ m1 m2 : String, Routes.handle join r m1 path = Routes.handle join r m2 path) ∧
    (∀ (reqMethod : String) (ms : List (String × Bool)),
      Routes.handle join (r.setMethods ms) reqMethod path =
        Dispatch.setMethods (Routes.handle join r reqMethod path) ms) := by
  constructor
  · intro m1 m2
    rfl
  · intro reqMethod ms
    cases hm : mapLookup r.mapRoutes path with
    | some h =>
      have hm2 : mapLookup (r.setMethods ms).mapRoutes path = some (h.setMethods ms) := by
        simp [Routes.setMethods, mapLookup_setMethods, hm]
      rw [handle_eq_exact hm, handle_eq_exact hm2]
      rfl
    | none =>
      have hm2 : mapLookup (r.setMethods ms).mapRoutes path = none := by
        simp [Routes.setMethods, mapLookup_setMethods, hm]
      cases hp : firstPatternMatch r.rgRoutes path with
      | some pr =>
        obtain ⟨h, caps⟩ := pr
        have hp2 : firstPatternMatch (r.setMethods ms).rgRoutes path =
            some (h.setMethods ms, caps) := by
          simp [Routes.setMethods, firstPatternMatch_setMethods, hp]
        rw [handle_eq_pattern hm hp, handle_eq_pattern hm2 hp2]
        rfl
      | none =>
        have hp2 : firstPatternMatch (r.setMethods ms).rgRoutes path = none := by
          simp [Routes.setMethods, firstPatternMatch_setMethods, hp]
        cases hd : firstDefaultIndex join r.defaultIndex r.mapRoutes path with
        | some pr =>
          obtain ⟨h, idx⟩ := pr
          have hd2 : firstDefaultIndex join (r.setMethods ms).defaultIndex
              (r.setMethods ms).mapRoutes path = some (h.setMethods ms, idx) := by
            simp [Routes.setMethods, firstDefaultIndex_setMethods, hd]
          rw [handle_eq_default hm hp hd, handle_eq_default hm2 hp2 hd2]
          rfl
        | none =>
          have hd2 : firstDefaultIndex join (r.setMethods ms).defaultIndex
              (r.setMethods ms).mapRoutes path = none := by
            simp [Routes.setMethods, firstDefaultIndex_setMethods, hd]
          rw [handle_eq_notFound hm hp hd, handle_eq_notFound hm2 hp2 hd2]
          rfl

/-! ## Claim theorems: dispatcher lifecycle -/

/-- When the CSRF gate does not fire (checking disabled, non-POST, or a
passing cookie), `DoCr` is the rest of the lifecycle on the freshly
initialised response. -/
theorem DoCr_guard_passes (cfg : AppConfig) (hooks : InstanceHooks)
    (callRes : CallResult) (req : Request) (matchArgs : List String)
    (hguard : (cfg.CheckXrsf && req.Method == "POST") = false ∨ xrsfFailCond req = false) :
    DoCr cfg hooks callRes req matchArgs =
      doCrRest hooks callRes
        (Response.setHeader ⟨none, [], []⟩ "Content-Type" "text/html; charset=utf-8") := by
  unfold DoCr
  rcases hguard with hg | hg
  · simp [hg]
  · cases hc : (cfg.CheckXrsf && req.Method == "POST") <;> simp [hg, hc]

/-- C2: with CSRF checking enabled and a POST request, a missing cookie, an
empty cookie value, or a cookie value different from the same-named form
field aborts immediately with status 500, the fixed body `xrsf error.` and
no lifecycle events (no instance construction, no hooks, no invocation);
when the cookie is present, non-empty and equal to the form field
(`xrsfFailCond` false), the request proceeds exactly as if CSRF checking
were disabled. -/
theorem DoCr_xrsf_gate (cfg : AppConfig) (hooks : InstanceHooks)
    (callRes : CallResult) (req : Request) (matchArgs : List String)
    (hck : cfg.CheckXrsf = true) (hpost : req.Method = "POST") :
    (xrsfFailCond req = true →
      DoCr cfg hooks callRes req matchArgs =
        (⟨some 500, [("Content-Type", "text/html; charset=utf-8")],
          strBytes "xrsf error."⟩, [])) ∧
    (xrsfFailCond req = false →
      DoCr cfg hooks callRes req matchArgs =
        DoCr ⟨false⟩ hooks callRes req matchArgs) := by
  constructor
  · intro hfail
    unfold DoCr
    simp [hck, hpost, hfail, Response.setHeader, Response.writeHeader, Response.write]
  · intro hok
    rw [DoCr_guard_passes cfg hooks callRes req matchArgs (Or.inr hok),
      DoCr_guard_passes ⟨false⟩ hooks callRes req matchArgs (Or.inl (by simp))]

/-- Witness for C2: a POST with no cookie aborts with the fixed body and an
empty event trace; a POST with cookie equal to the form field proceeds as if
checking were disabled. -/
theorem DoCr_xrsf_gate_witness :
    DoCr ⟨true⟩ ⟨false, false, false⟩ (CallResult.ok []) demoPostReq [] =
      (⟨some 500, [("Content-Type", "text/html; charset=utf-8")],
        strBytes "xrsf error."⟩, []) ∧
    DoCr ⟨true⟩ ⟨false, false, false⟩ (CallResult.ok []) demoPostOkReq [] =
      DoCr ⟨false⟩ ⟨false, false, false⟩ (CallResult.ok []) demoPostOkReq [] :=
  ⟨(DoCr_xrsf_gate ⟨true⟩ ⟨false, false, false⟩ (CallResult.ok []) demoPostReq []
      rfl rfl).1 rfl,
   (DoCr_xrsf_gate ⟨true⟩ ⟨false, false, false⟩ (CallResult.ok []) demoPostOkReq []
      rfl rfl).2 rfl⟩

/-- C3: a fault reported by the guarded invocation yields status 500 with
the fixed body `Server Error` and only the default Content-Type header (no
rendering, no Content-Length), the logged errors of the run are exactly the
one fault, and the After hook is never invoked. -/
theorem DoCr_fault_isolation (cfg : AppConfig) (hooks : InstanceHooks) (msg : String)
    (req : Request) (matchArgs : List String)
    (hguard : (cfg.CheckXrsf && req.Method == "POST") = false ∨ xrsfFailCond req = false) :
    (DoCr cfg hooks (CallResult.fault msg) req matchArgs).1 =
      ⟨some 500, [("Content-Type", "text/html; charset=utf-8")],
        strBytes "Server Error"⟩ ∧
    ((DoCr cfg hooks (CallResult.fault msg) req matchArgs).2.filter Event.isLogError) =
      [Event.logError msg] ∧
    Event.afterHook ∉ (DoCr cfg hooks (CallResult.fault msg) req matchArgs).2 := by
  rw [DoCr_guard_passes cfg hooks (CallResult.fault msg) req matchArgs hguard]
  obtain ⟨hi, hb, ha⟩ := hooks
  cases hi <;> cases hb <;>
    simp [doCrRest, abortWith, Response.setHeader, Response.writeHeader,
      Response.write, Event.isLogError]

/-- Witness for C3: a GET request whose invocation faults, with all hooks
present, still never reaches the After hook. -/
theorem DoCr_fault_isolation_witness :
    (DoCr ⟨false⟩ ⟨true, true, true⟩ (CallResult.fault "panic: boom") demoGetReq []).1 =
      ⟨some 500, [("Content-Type", "text/html; charset=utf-8")],
        strBytes "Server Error"⟩ ∧
    ((DoCr ⟨false⟩ ⟨true, true, true⟩ (CallResult.fault "panic: boom")
        demoGetReq []).2.filter Event.isLogError) = [Event.logError "panic: boom"] ∧
    Event.afterHook ∉
      (DoCr ⟨false⟩ ⟨true, true, true⟩ (CallResult.fault "panic: boom") demoGetReq []).2 :=
  DoCr_fault_isolation ⟨false⟩ ⟨true, true, true⟩ "panic: boom" demoGetReq []
    (Or.inl rfl)

/-- C8: a string return value is rendered as exactly the UTF-8 bytes of the
string, and the Content-Length header is `strconv.Itoa` of that byte
count. -/
theorem DoCr_string_result_rendering (cfg : AppConfig) (hooks : InstanceHooks)
    (req : Request) (matchArgs : List String) (s : String)
    (hguard : (cfg.CheckXrsf && req.Method == "POST") = false ∨ xrsfFailCond req = false) :
    (DoCr cfg hooks (CallResult.ok [RetVal.str s]) req matchArgs).1.body = strBytes s ∧
    getHeader (DoCr cfg hooks (CallResult.ok [RetVal.str s]) req matchArgs).1.headers
      "Content-Length" = some (toString (strBytes s).length) := by
  rw [DoCr_guard_passes cfg hooks (CallResult.ok [RetVal.str s]) req matchArgs hguard]
  exact ⟨rfl, rfl⟩

/-- Witness for C8: the string `ok` yields body bytes `[111, 107]` and
Content-Length `2`. -/
theorem DoCr_string_result_rendering_witness :
    (DoCr ⟨false⟩ ⟨false, false, true⟩ (CallResult.ok [RetVal.str "ok"])
        demoGetReq []).1.body = [111, 107] ∧
    getHeader (DoCr ⟨false⟩ ⟨false, false, true⟩ (CallResult.ok [RetVal.str "ok"])
        demoGetReq []).1.headers "Content-Length" = some "2" := by
  have h := DoCr_string_result_rendering ⟨false⟩ ⟨false, false, true⟩ demoGetReq [] "ok"
    (Or.inl rfl)
  exact ⟨h.1.trans (by decide), h.2.trans (by decide)⟩

/-! ## Claim theorems: route registration -/

/-- C6: a pattern source (containing `*` or `?`) that fails to compile makes
`addAction` return the compilation error and leave the route table
untouched, so every subsequent routing decision is as before. -/
theorem addAction_invalid_pattern (compile : String → Except String Regexp)
    (r : Routes) (s : String) (methods : List (String × Bool))
    (ctype actionName e : String)
    (hstar : containsStarQ s = true)
    (herr : compile s = Except.error e) :
    Routes.addAction compile r s methods ctype actionName = (r, some e) ∧
    ∀ (join : String → String → String) (reqMethod path : String),
      Routes.handle join (Routes.addAction compile r s methods ctype actionName).1
          reqMethod path =
        Routes.handle join r reqMethod path := by
  have h1 : Routes.addAction compile r s methods ctype actionName = (r, some e) := by
    unfold Routes.addAction
    rw [hstar]
    simp [herr]
  exact ⟨h1, fun join reqMethod path => by rw [h1]⟩

/-- Witness for C6: the invalid source `/user/*` is rejected and the table
stays the fresh table. -/
theorem addAction_invalid_pattern_witness :
    containsStarQ "/user/*" = true ∧
    Routes.addAction compileFail (NewRoutes ["index.html"]) "/user/*" []
        "*DemoAction" "Execute" =
      (NewRoutes ["index.html"],
        some "error parsing regexp: missing argument to repetition operator") :=
  ⟨rfl, (addAction_invalid_pattern compileFail (NewRoutes ["index.html"]) "/user/*" []
    "*DemoAction" "Execute"
    "error parsing regexp: missing argument to repetition operator" rfl rfl).1⟩

/-- C7: `addAction` classifies a route source by `strings.ContainsAny(s,
"*?")`: a source without `*` and `?` (even one full of regex syntax such as
`/user/(\d+)`) is stored as an exact literal entry and the compiler is never
consulted (the result is independent of it); a source with `*` or `?` is
never stored in the exact map and, when compilation succeeds, is appended to
the ordered pattern list. -/
theorem addAction_star_question_classification (compile : String → Except String Regexp)
    (r : Routes) (s : String) (methods : List (String × Bool)) (ctype actionName : String) :
    (containsStarQ s = false →
      Routes.addAction compile r s methods ctype actionName =
        (⟨(s, Handler.action ⟨methods, none, ctype, actionName⟩) :: r.mapRoutes,
          r.rgRoutes, r.defaultIndex⟩, none) ∧
      ∀ compile2 : String → Except String Regexp,
        Routes.addAction compile2 r s methods ctype actionName =
          Routes.addAction compile r s methods ctype actionName) ∧
    (containsStarQ s = true →
      (Routes.addAction compile r s methods ctype actionName).1.mapRoutes = r.mapRoutes ∧
      ∀ cr : Regexp, compile s = Except.ok cr →
        Routes.addAction compile r s methods ctype actionName =
          (⟨r.mapRoutes, r.rgRoutes ++ [⟨methods, some cr, ctype, actionName⟩],
            r.defaultIndex⟩, none)) := by
  constructor
  · intro hno
    have hx : ∀ c2 : String → Except String Regexp,
        Routes.addAction c2 r s methods ctype actionName =
          (⟨(s, Handler.action ⟨methods, none, ctype, actionName⟩) :: r.mapRoutes,
            r.rgRoutes, r.defaultIndex⟩, none) := by
      intro c2
      unfold Routes.addAction
      rw [hno]
      simp
    exact ⟨hx compile, fun c2 => (hx c2).trans (hx compile).symm⟩
  · intro hyes
    constructor
    · unfold Routes.addAction
      rw [hyes]
      cases hc : compile s <;> simp
    · intro cr hok
      unfold Routes.addAction
      rw [hyes]
      simp [hok]

/-- Witness for C7: `/user/(\d+)` (no `*`, no `?`) becomes an exact literal
entry; `/down/*` becomes a pattern entry when compilation succeeds. -/
theorem addAction_star_question_classification_witness :
    containsStarQ "/user/(\\d+)" = false ∧
    Routes.addAction compileFail (NewRoutes []) "/user/(\\d+)" [] "*UserAction"
        "Execute" =
      (⟨[("/user/(\\d+)", Handler.action ⟨[], none, "*UserAction", "Execute"⟩)],
        [], []⟩, none) ∧
    containsStarQ "/down/*" = true ∧
    Routes.addAction compileAll (NewRoutes []) "/down/*" [] "*DownAction" "Execute" =
      (⟨[], [⟨[], some rxAll, "*DownAction", "Execute"⟩], []⟩, none) := by
  refine ⟨rfl, ?_, rfl, ?_⟩
  · exact ((addAction_star_question_classification compileFail (NewRoutes [])
      "/user/(\\d+)" [] "*UserAction" "Execute").1 rfl).1
  · exact ((addAction_star_question_classification compileAll (NewRoutes [])
      "/down/*" [] "*DownAction" "Execute").2 rfl).2 rxAll rfl
